import Mathlib

/-!
# Verification of the DCA strategy engine (`dca.py`)

Shallow embedding of the single-file DCA trading bot. Python floats are
modelled as rationals (`ℚ`); network calls are modelled as oracles indexed
by the attempt number, returning `Except` values; the tenacity retry loop
is modelled explicitly; the engine `StrategyRunner.run` is modelled as a
pure function producing either an uncaught Python exception (`PyError`)
or the record of its observable effects (`RunEvents`).
-/

set_option autoImplicit false

namespace DCA

/-- Constant `NUMBER_OF_NETWORK_ATTEMPTS = 5` (dca.py line 12). -/
def NUMBER_OF_NETWORK_ATTEMPTS : Nat := 5

/-- Constant `RETRY_WAIT_TIME_SECONDS = 1` (dca.py line 13): the fixed wait, in
seconds, between attempts. Wall-clock sleeping has no effect on values, so
the combinator below records it only as a configuration parameter. -/
def RETRY_WAIT_TIME_SECONDS : Nat := 1

/-- Result of a retried network operation: either the value of the first
successful attempt, or (tenacity `RetryError`) exhaustion wrapping the
last underlying error. -/
inductive Retried (ε : Type) (α : Type) where
  | ok (a : α)
  | retryExhausted (lastError : ε)
  deriving DecidableEq, Repr

/-- One round of `tenacity.Retrying`: perform the attempt numbered
`attempt`; `fuel` is the number of further attempts allowed after this
one. On `fuel = 0` the attempt is the last: its error is wrapped into
`retryExhausted`. -/
def retryGo {ε α : Type} (op : Nat → Except ε α) (attempt : Nat) : Nat → Retried ε α
  | 0 =>
    match op attempt with
    | .ok a => .ok a
    | .error e => .retryExhausted e
  | fuel + 1 =>
    match op attempt with
    | .ok a => .ok a
    | .error _ => retryGo op (attempt + 1) fuel

/-- Model of `tenacity.Retrying(stop=stop_after_attempt(maxAttempts), wait=wait_fixed(waitSeconds))`
applied to the attempt-indexed operation `op` (attempts are numbered from 1,
matching `attempt.retry_state.attempt_number`). `waitSeconds` only models
the configured fixed delay; it does not change any value. -/
def tenacityRetrying {ε α : Type} (maxAttempts : Nat) (_waitSeconds : Nat)
    (op : Nat → Except ε α) : Retried ε α :=
  retryGo op 1 (maxAttempts - 1)

/-- An attempt that succeeds ends the retry loop with its value. -/
theorem retryGo_ok {ε α : Type} (op : Nat → Except ε α) (attempt : Nat) (a : α)
    (h : op attempt = .ok a) : ∀ fuel, retryGo op attempt fuel = .ok a := by
  intro fuel
  cases fuel <;> simp [retryGo, h]

/-- An operation failing identically on every attempt exhausts the loop. -/
theorem retryGo_all_error {ε α : Type} (op : Nat → Except ε α) (e : ε)
    (h : ∀ k, op k = .error e) :
    ∀ (fuel attempt : Nat), retryGo op attempt fuel = .retryExhausted e := by
  intro fuel
  induction fuel with
  | zero => intro attempt; simp [retryGo, h attempt]
  | succ n ih => intro attempt; simp [retryGo, h attempt]; exact ih (attempt + 1)

/-- A transport/exchange-client error (the exception message). -/
abbrev NetErr : Type := String

/-- One trade returned by `fetch_my_trades`; only the buyer-side flag
(`order["info"]["isBuyer"]`) is consumed by the code. -/
structure Trade where
  isBuyer : Bool
  deriving DecidableEq, Repr

/-- A ticker returned by `fetch_ticker`; only the ask price is consumed. -/
structure Ticker where
  ask : ℚ
  deriving DecidableEq, Repr

/-- An order returned by `create_order`; the code reads `id`, `price`,
`status` for logging and hands the whole order to the created-order hook. -/
structure Order where
  id : String
  price : ℚ
  status : String
  deriving DecidableEq, Repr

/-- A balance snapshot: association list from asset symbol to its `free`
balance (`used`/`total` are never consumed by the engine). -/
abbrev BalanceSnapshot : Type := List (String × ℚ)

/-- Lookup `balances[asset]["free"]`: `none` models the `KeyError` raised when
the asset is absent from the snapshot. -/
def lookupFree (balances : BalanceSnapshot) (asset : String) : Option ℚ :=
  List.lookup asset balances

/-- The `ccxt` exchange client underneath the `Exchange` facade: each raw
network call is an oracle from the attempt number to that attempt's
outcome (deterministic per attempt, which suffices since the engine
performs each facade call at most once per pair per run). -/
structure ExchangeClient where
  name : String
  fetch_balance : Nat → Except NetErr BalanceSnapshot
  fetch_my_trades : String → Nat → Except NetErr (List Trade)
  fetch_ticker : String → Nat → Except NetErr Ticker
  create_order : String → ℚ → Nat → Except NetErr Order

/-- Facade call `Exchange.get_balances` (dca.py lines 73-85): `fetch_balance` under
the standard retry policy. -/
def ExchangeClient.get_balances (c : ExchangeClient) : Retried NetErr BalanceSnapshot :=
  tenacityRetrying NUMBER_OF_NETWORK_ATTEMPTS RETRY_WAIT_TIME_SECONDS c.fetch_balance

/-- Facade call `Exchange.get_buy_orders` (dca.py lines 57-71): `fetch_my_trades`
under the standard retry policy, each attempt's result filtered to
buyer-side fills (`order["info"]["isBuyer"] is True`). -/
def ExchangeClient.get_buy_orders (c : ExchangeClient) (pair : String) :
    Retried NetErr (List Trade) :=
  tenacityRetrying NUMBER_OF_NETWORK_ATTEMPTS RETRY_WAIT_TIME_SECONDS
    (fun attempt => (c.fetch_my_trades pair attempt).map (List.filter (fun o => o.isBuyer)))

/-- Facade call `Exchange.get_price` (dca.py lines 87-99): `fetch_ticker` under the
standard retry policy. -/
def ExchangeClient.get_price (c : ExchangeClient) (pair : String) : Retried NetErr Ticker :=
  tenacityRetrying NUMBER_OF_NETWORK_ATTEMPTS RETRY_WAIT_TIME_SECONDS (c.fetch_ticker pair)

/-- Facade call `Exchange.buy` (dca.py lines 101-115): `create_order` (market buy)
under the standard retry policy. -/
def ExchangeClient.buy (c : ExchangeClient) (pair : String) (amount : ℚ) :
    Retried NetErr Order :=
  tenacityRetrying NUMBER_OF_NETWORK_ATTEMPTS RETRY_WAIT_TIME_SECONDS
    (c.create_order pair amount)

/-- A first-attempt success determines `get_balances`. -/
theorem ExchangeClient.get_balances_first_ok (c : ExchangeClient) (bal : BalanceSnapshot)
    (h : c.fetch_balance 1 = .ok bal) : c.get_balances = .ok bal :=
  retryGo_ok c.fetch_balance 1 bal h _

/-- A balance fetch failing on every attempt exhausts its retries. -/
theorem ExchangeClient.get_balances_all_error (c : ExchangeClient) (e : NetErr)
    (h : ∀ n, c.fetch_balance n = .error e) : c.get_balances = .retryExhausted e :=
  retryGo_all_error c.fetch_balance e h _ 1

/-- A first-attempt success determines `get_buy_orders` (with the
buyer-side filter applied). -/
theorem ExchangeClient.get_buy_orders_first_ok (c : ExchangeClient) (pair : String)
    (tr : List Trade) (h : c.fetch_my_trades pair 1 = .ok tr) :
    c.get_buy_orders pair = .ok (tr.filter (fun o => o.isBuyer)) :=
  retryGo_ok _ 1 _ (by simp [h, Except.map]) _

/-- A trades fetch failing on every attempt exhausts its retries. -/
theorem ExchangeClient.get_buy_orders_all_error (c : ExchangeClient) (pair : String)
    (e : NetErr) (h : ∀ n, c.fetch_my_trades pair n = .error e) :
    c.get_buy_orders pair = .retryExhausted e :=
  retryGo_all_error _ e (fun k => by simp [h k, Except.map]) _ 1

/-- A first-attempt success determines `get_price`. -/
theorem ExchangeClient.get_price_first_ok (c : ExchangeClient) (pair : String)
    (t : Ticker) (h : c.fetch_ticker pair 1 = .ok t) : c.get_price pair = .ok t :=
  retryGo_ok _ 1 t h _

/-- A ticker fetch failing on every attempt exhausts its retries. -/
theorem ExchangeClient.get_price_all_error (c : ExchangeClient) (pair : String)
    (e : NetErr) (h : ∀ n, c.fetch_ticker pair n = .error e) :
    c.get_price pair = .retryExhausted e :=
  retryGo_all_error _ e h _ 1

/-- A first-attempt success determines `buy`. -/
theorem ExchangeClient.buy_first_ok (c : ExchangeClient) (pair : String) (amount : ℚ)
    (o : Order) (h : c.create_order pair amount 1 = .ok o) : c.buy pair amount = .ok o :=
  retryGo_ok _ 1 o h _

/-- An order submission failing on every attempt exhausts its retries. -/
theorem ExchangeClient.buy_all_error (c : ExchangeClient) (pair : String) (amount : ℚ)
    (e : NetErr) (h : ∀ n, c.create_order pair amount n = .error e) :
    c.buy pair amount = .retryExhausted e :=
  retryGo_all_error _ e h _ 1

/-- Class `Strategy` (dca.py lines 16-37). -/
structure Strategy where
  period : String
  amount : ℚ
  base_asset : String
  assets : List String
  exchanges : List String

/-- Method `Strategy.get_pairs` (dca.py line 34): `"{}/{}".format(quote, base_asset)`
for each asset, in declared order. -/
def Strategy.get_pairs (s : Strategy) : List String :=
  s.assets.map (fun quote => quote ++ "/" ++ s.base_asset)

/-- An uncaught Python exception escaping `StrategyRunner.run`. -/
inductive PyError where
  | keyError (key : String)
  | nameError (name : String)
  deriving DecidableEq, Repr

instance {ε α : Type} [DecidableEq ε] [DecidableEq α] : DecidableEq (Except ε α)
  | .error a, .error b =>
    if h : a = b then isTrue (by rw [h]) else isFalse (fun hh => h (Except.error.inj hh))
  | .error _, .ok _ => isFalse (fun hh => Except.noConfusion hh)
  | .ok _, .error _ => isFalse (fun hh => Except.noConfusion hh)
  | .ok a, .ok b =>
    if h : a = b then isTrue (by rw [h]) else isFalse (fun hh => h (Except.ok.inj hh))

/-- The observable effects of one `run`, in program order within each
field: hook invocations with their arguments, facade calls per pair, and
the `orders` accumulator. -/
structure RunEvents where
  noFundsCalls : List (String × ℚ × ℚ × String)
  historyFetches : List String
  gateCalls : List (String × String × String × List Trade)
  priceFetches : List String
  buyCalls : List (String × ℚ)
  orderCreatedCalls : List (String × Order)
  orders : List Order
  deriving DecidableEq, Repr

/-- No effects. -/
def RunEvents.empty : RunEvents := ⟨[], [], [], [], [], [], []⟩

/-- Concatenation of effect records (earlier effects first). -/
def RunEvents.append (a b : RunEvents) : RunEvents :=
  ⟨a.noFundsCalls ++ b.noFundsCalls, a.historyFetches ++ b.historyFetches,
   a.gateCalls ++ b.gateCalls, a.priceFetches ++ b.priceFetches,
   a.buyCalls ++ b.buyCalls, a.orderCreatedCalls ++ b.orderCreatedCalls,
   a.orders ++ b.orders⟩

/-- Constructor `StrategyRunner.__init__` (dca.py lines 134-142). The no-funds and
order-created callbacks return nothing and their invocations are recorded
as events, so only whether they are configured (`is not None`) is
modelled; the should-buy callback's boolean result steers control flow,
so it is modelled as an optional function of its four arguments. -/
structure StrategyRunner where
  on_balance_no_available_configured : Bool
  should_execute_buy_callback : Option (String → String → String → List Trade → Bool)
  on_order_created_configured : Bool

/-- Formatting `"{:.8f}".format(q)`: rounding to 8 decimal places (dca.py line 227).
The exact float tie-breaking is abstracted to rational rounding; no
verified property depends on the tie case. -/
def fmt8 (q : ℚ) : ℚ :=
  (round (q * 100000000) : ℚ) / 100000000

/-- The allocation loop state and body (dca.py lines 175-180): iterate the
pairs in declared order, carrying `aux_balance` (the committed total) and
`order_pairs_to_create` (the selected pairs, appended in order). -/
def allocLoop (quote_balance amount : ℚ) (aux_balance : ℚ) (acc : List String) :
    List String → ℚ × List String
  | [] => (aux_balance, acc)
  | pair :: rest =>
    if aux_balance + amount ≤ quote_balance then
      allocLoop quote_balance amount (aux_balance + amount) (acc ++ [pair]) rest
    else
      allocLoop quote_balance amount aux_balance acc rest

/-- The list `order_pairs_to_create` as computed by the allocation step. -/
def allocate (quote_balance amount : ℚ) (pairs : List String) : List String :=
  (allocLoop quote_balance amount 0 [] pairs).2

/-- The final value of `aux_balance`: the total amount committed by the
allocation step. -/
def allocatedTotal (quote_balance amount : ℚ) (pairs : List String) : ℚ :=
  (allocLoop quote_balance amount 0 [] pairs).1

/-- Modelled from the spec (§4.3): the allocation algorithm as the spec
words it — greedy left-to-right selection with running total `committed`,
no early break, skipped pairs omitted. Used only to compare against
`allocate`, which is translated from the source loop. -/
def greedyAllocSpec (freeBalance perPairAmount : ℚ) : ℚ → List String → List String
  | _, [] => []
  | committed, p :: ps =>
    if committed + perPairAmount ≤ freeBalance then
      p :: greedyAllocSpec freeBalance perPairAmount (committed + perPairAmount) ps
    else
      greedyAllocSpec freeBalance perPairAmount committed ps

/-- The price fetch, quantity computation, order submission, and
order-created notification for one pair (dca.py lines 214-244). Returns
the pair's effects from the price fetch onward; a `RetryError` from
either call ends the pair's processing (`continue`). -/
def priceAndBuy (r : StrategyRunner) (strategy : Strategy) (c : ExchangeClient)
    (pair : String) : RunEvents :=
  match c.get_price pair with
  | .retryExhausted _ => ⟨[], [], [], [pair], [], [], []⟩
  | .ok ticker =>
    let amount_to_buy := fmt8 (strategy.amount / ticker.ask)
    match c.buy pair amount_to_buy with
    | .retryExhausted _ => ⟨[], [], [], [pair], [(pair, amount_to_buy)], [], []⟩
    | .ok order =>
      ⟨[], [], [], [pair], [(pair, amount_to_buy)],
       if r.on_order_created_configured then [(c.name, order)] else [], [order]⟩

/-- One iteration of the per-pair loop (dca.py lines 190-244).
`created_orders` is the current value of the Python local of that name:
`none` while it has never been assigned. The history fetch's `RetryError`
is swallowed (`pass`), leaving `created_orders` unchanged; the gate check,
when a callback is configured, reads `created_orders` — raising
`NameError` (Python `UnboundLocalError`) if it was never assigned. -/
def pairStep (r : StrategyRunner) (strategy : Strategy) (c : ExchangeClient)
    (created_orders : Option (List Trade)) (pair : String) :
    Except PyError (RunEvents × Option (List Trade)) :=
  let created : Option (List Trade) :=
    match c.get_buy_orders pair with
    | .ok trades => some trades
    | .retryExhausted _ => created_orders
  let hev : RunEvents := ⟨[], [pair], [], [], [], [], []⟩
  match r.should_execute_buy_callback with
  | none => .ok (hev.append (priceAndBuy r strategy c pair), created)
  | some cb =>
    match created with
    | none => .error (.nameError "created_orders")
    | some history =>
      let gev : RunEvents := ⟨[], [], [(pair, c.name, strategy.period, history)], [], [], [], []⟩
      if cb pair c.name strategy.period history then
        .ok ((hev.append gev).append (priceAndBuy r strategy c pair), created)
      else
        .ok (hev.append gev, created)

/-- The per-pair loop over `order_pairs_to_create`, threading the
`created_orders` local across iterations as Python function scope does. -/
def processPairs (r : StrategyRunner) (strategy : Strategy) (c : ExchangeClient) :
    Option (List Trade) → List String → Except PyError RunEvents
  | _, [] => .ok RunEvents.empty
  | created_orders, pair :: rest =>
    match pairStep r strategy c created_orders pair with
    | .error e => .error e
    | .ok (ev, created) =>
      match processPairs r strategy c created rest with
      | .error e => .error e
      | .ok evs => .ok (ev.append evs)

/-- Engine `StrategyRunner.run` (dca.py lines 144-246): balance fetch (a
`RetryError` logs and returns), `free` lookup for the quote asset (a
missing key raises `KeyError`), the insufficient-funds branch with its
optional hook, the allocation step, and the per-pair loop. -/
def StrategyRunner.run (r : StrategyRunner) (strategy : Strategy) (c : ExchangeClient) :
    Except PyError RunEvents :=
  match c.get_balances with
  | .retryExhausted _ => .ok RunEvents.empty
  | .ok balances =>
    match lookupFree balances strategy.base_asset with
    | none => .error (.keyError strategy.base_asset)
    | some quote_balance =>
      if quote_balance < strategy.amount then
        .ok ⟨if r.on_balance_no_available_configured then
               [(c.name, quote_balance, strategy.amount, strategy.base_asset)]
             else [], [], [], [], [], [], []⟩
      else
        processPairs r strategy c none (allocate quote_balance strategy.amount strategy.get_pairs)

/-! ## Allocation lemmas -/

/-- The committed total `aux_balance` either stays at a value at most
`quote_balance` (set by a successful guard) or is still `0`. -/
theorem allocLoop_fst_invariant (quote_balance amount : ℚ) :
    ∀ (pairs : List String) (aux : ℚ) (acc : List String),
      aux ≤ quote_balance ∨ aux = 0 →
      ((allocLoop quote_balance amount aux acc pairs).1 ≤ quote_balance ∨
        (allocLoop quote_balance amount aux acc pairs).1 = 0) := by
  intro pairs
  induction pairs with
  | nil => intro aux acc h; simpa [allocLoop] using h
  | cons p ps ih =>
    intro aux acc h
    by_cases hg : aux + amount ≤ quote_balance
    · simpa [allocLoop, hg] using ih (aux + amount) (acc ++ [p]) (Or.inl hg)
    · simpa [allocLoop, hg] using ih aux acc h

/-- The selected pairs of `allocLoop` are the accumulator followed by the
spec's greedy selection started at the current committed total. -/
theorem allocLoop_snd_eq (quote_balance amount : ℚ) :
    ∀ (pairs : List String) (aux : ℚ) (acc : List String),
      (allocLoop quote_balance amount aux acc pairs).2 =
        acc ++ greedyAllocSpec quote_balance amount aux pairs := by
  intro pairs
  induction pairs with
  | nil => intro aux acc; simp [allocLoop, greedyAllocSpec]
  | cons p ps ih =>
    intro aux acc
    by_cases hg : aux + amount ≤ quote_balance
    · simp [allocLoop, greedyAllocSpec, hg, ih]
    · simp [allocLoop, greedyAllocSpec, hg, ih]

/-- Allocation of a non-empty pair list whose first guard passes starts
with the first pair. -/
theorem allocate_cons_of_le (quote_balance amount : ℚ) (p : String) (ps : List String)
    (h : amount ≤ quote_balance) :
    allocate quote_balance amount (p :: ps) =
      p :: greedyAllocSpec quote_balance amount amount ps := by
  simp [allocate, allocLoop, h, allocLoop_snd_eq]

/-! ## Claims about the allocation step -/

/-- C1 (amended: for every nonnegative free balance). The final value of
the running accumulator `aux_balance` — the total committed by the
allocation step — never exceeds the free balance, for every per-pair
amount and ordered pair list, whenever the free balance is nonnegative
(as it is in `run`, which only reaches the allocation step when
`quote_balance ≥ strategy.amount`, with positive configured amounts). -/
theorem allocation_total_le_free_balance (freeBalance perPairAmount : ℚ)
    (pairs : List String) (h : 0 ≤ freeBalance) :
    allocatedTotal freeBalance perPairAmount pairs ≤ freeBalance := by
  have := allocLoop_fst_invariant freeBalance perPairAmount pairs 0 [] (Or.inr rfl)
  rcases this with h1 | h1
  · exact h1
  · rw [allocatedTotal, h1]; exact h

/-- Witness for C1's amended theorem at a concrete input. -/
theorem allocation_total_le_free_balance_witness :
    (0 : ℚ) ≤ 25 ∧ allocatedTotal 25 10 ["BTC/USDT", "ETH/USDT", "SOL/USDT"] ≤ 25 :=
  ⟨by norm_num,
   allocation_total_le_free_balance 25 10 ["BTC/USDT", "ETH/USDT", "SOL/USDT"] (by norm_num)⟩

/-- Counterexample to C1 as stated: with a negative free balance (a value
a margin account's `free` float can take) and `pairs = ["BTC/USDT"]`, no
pair passes the guard, the accumulator ends at `0`, and `0 ≤ -1` fails. -/
theorem allocation_total_le_free_balance_counterexample :
    ¬ allocatedTotal (-1) 1 ["BTC/USDT"] ≤ -1 := by
  norm_num [allocatedTotal, allocLoop]

/-- C2 (amended: the worked example requires a positive per-pair amount).
The allocation step computes exactly the spec's greedy left-to-right
selection (include a pair iff `committed + perPairAmount ≤ freeBalance`,
no early break, skipped pairs omitted), and for every positive
`perPairAmount`, free balance `2.5 × perPairAmount` and pairs
`[A, B, C]`, the allocation is exactly `[A, B]`. -/
theorem allocation_is_greedy_selection :
    (∀ (freeBalance perPairAmount : ℚ) (pairs : List String),
        allocate freeBalance perPairAmount pairs =
          greedyAllocSpec freeBalance perPairAmount 0 pairs) ∧
    (∀ perPairAmount : ℚ, 0 < perPairAmount → ∀ a b c : String,
        allocate (5 / 2 * perPairAmount) perPairAmount [a, b, c] = [a, b]) := by
  constructor
  · intro freeBalance perPairAmount pairs
    simpa using allocLoop_snd_eq freeBalance perPairAmount pairs 0 []
  · intro amt hamt a b c
    have h1 : amt ≤ 5 / 2 * amt := by linarith
    have h2 : amt + amt ≤ 5 / 2 * amt := by linarith
    have h3 : ¬ (amt + amt + amt ≤ 5 / 2 * amt) := by
      intro h; linarith
    simp [allocate, allocLoop, h1, h2, h3]

/-- Witness for C2's amended theorem at a concrete input. -/
theorem allocation_is_greedy_selection_witness :
    allocate 25 10 ["BTC/USDT", "ETH/USDT"] = greedyAllocSpec 25 10 0 ["BTC/USDT", "ETH/USDT"] ∧
    ((0 : ℚ) < 10 ∧ allocate (5 / 2 * 10) 10 ["A/U", "B/U", "C/U"] = ["A/U", "B/U"]) :=
  ⟨allocation_is_greedy_selection.1 25 10 ["BTC/USDT", "ETH/USDT"],
   by norm_num, allocation_is_greedy_selection.2 10 (by norm_num) "A/U" "B/U" "C/U"⟩

/-- Counterexample to C2 as stated: at `perPairAmount = 0` the free
balance `2.5 × 0 = 0` satisfies every guard, so all three pairs are
selected, not exactly two. -/
theorem allocation_example_counterexample :
    allocate (5 / 2 * 0) 0 ["A", "B", "C"] ≠ ["A", "B"] := by
  norm_num [allocate, allocLoop]

/-- C10. Whenever the insufficient-funds branch is not taken
(`strategy.amount ≤ quote_balance`) and the asset list is non-empty, the
first pair's guard `0 + amount ≤ quote_balance` passes, so the computed
allocation is non-empty, starts with the first declared pair, and `run`
proceeds into the per-pair order loop over that non-empty allocation. -/
theorem run_allocation_nonempty (r : StrategyRunner) (s : Strategy) (c : ExchangeClient)
    (bal : BalanceSnapshot) (q : ℚ)
    (hb : c.get_balances = .ok bal)
    (hq : lookupFree bal s.base_asset = some q)
    (hassets : s.assets ≠ [])
    (hamt : s.amount ≤ q) :
    allocate q s.amount s.get_pairs ≠ [] ∧
    (allocate q s.amount s.get_pairs).head? = s.get_pairs.head? ∧
    r.run s c = processPairs r s c none (allocate q s.amount s.get_pairs) := by
  obtain ⟨a, as, ha⟩ : ∃ a as, s.assets = a :: as := by
    cases h : s.assets with
    | nil => exact absurd h hassets
    | cons a as => exact ⟨a, as, rfl⟩
  have hpairs : s.get_pairs = (a ++ "/" ++ s.base_asset) :: as.map (fun x => x ++ "/" ++ s.base_asset) := by
    simp [Strategy.get_pairs, ha]
  have hcons := allocate_cons_of_le q s.amount (a ++ "/" ++ s.base_asset)
    (as.map (fun x => x ++ "/" ++ s.base_asset)) hamt
  refine ⟨?_, ?_, ?_⟩
  · rw [hpairs, hcons]; simp
  · rw [hpairs, hcons]; simp
  · rw [StrategyRunner.run, hb]
    simp [hq, not_lt.mpr hamt]

/-- Concrete runner used by witnesses: all three hooks configured; the
gate buys only when the history is non-empty. -/
def sampleRunner : StrategyRunner :=
  ⟨true, some (fun _ _ _ history => decide (history ≠ [])), true⟩

/-- Concrete strategy used by witnesses. -/
def sampleStrategy : Strategy := ⟨"1w", 10, "USDT", ["BTC", "ETH"], ["binance"]⟩

/-- Concrete exchange client used by witnesses: every call succeeds on
the first attempt. -/
def sampleClient : ExchangeClient :=
  ⟨"binance",
   fun _ => .ok [("USDT", 25)],
   fun _ _ => .ok [⟨true⟩, ⟨false⟩],
   fun _ _ => .ok ⟨50000⟩,
   fun _ _ _ => .ok ⟨"oid1", 50000, "closed"⟩⟩

/-- Witness for C10 at a concrete input. -/
theorem run_allocation_nonempty_witness :
    allocate 25 sampleStrategy.amount sampleStrategy.get_pairs ≠ [] ∧
    (allocate 25 sampleStrategy.amount sampleStrategy.get_pairs).head? =
      sampleStrategy.get_pairs.head? ∧
    sampleRunner.run sampleStrategy sampleClient =
      processPairs sampleRunner sampleStrategy sampleClient none
        (allocate 25 sampleStrategy.amount sampleStrategy.get_pairs) :=
  run_allocation_nonempty sampleRunner sampleStrategy sampleClient [("USDT", 25)] 25
    (by decide) (by decide) (by decide) (by norm_num [sampleStrategy])

/-! ## Run-level claims -/

/-- C7. When the initial balance fetch exhausts its retries, `run` logs
and returns immediately: the result carries no hook invocation, no
per-pair activity and no order — exactly `RunEvents.empty` — and no
exception escapes. -/
theorem run_aborts_on_balance_fetch_failure (r : StrategyRunner) (s : Strategy)
    (c : ExchangeClient) (err : NetErr)
    (h : c.get_balances = .retryExhausted err) :
    r.run s c = .ok RunEvents.empty := by
  rw [StrategyRunner.run, h]

/-- Concrete exchange client whose every raw call fails on every attempt. -/
def downClient : ExchangeClient :=
  ⟨"binance",
   fun _ => .error "net down",
   fun _ _ => .error "net down",
   fun _ _ => .error "net down",
   fun _ _ _ => .error "net down"⟩

/-- Witness for C7 at a concrete input. -/
theorem run_aborts_on_balance_fetch_failure_witness :
    sampleRunner.run sampleStrategy downClient = .ok RunEvents.empty :=
  run_aborts_on_balance_fetch_failure sampleRunner sampleStrategy downClient "net down"
    (by decide)

/-- C3. When the free balance of the quote asset is strictly below the
per-pair amount, `run` returns with the no-funds hook recorded exactly
once with `(exchangeName, freeBalance, perPairAmount, quoteAsset)` when
configured (and not at all otherwise), and with no history fetch, no gate
call, no price fetch, no buy attempt and no order. -/
theorem run_insufficient_funds (r : StrategyRunner) (s : Strategy) (c : ExchangeClient)
    (bal : BalanceSnapshot) (q : ℚ)
    (hb : c.get_balances = .ok bal)
    (hq : lookupFree bal s.base_asset = some q)
    (hlt : q < s.amount) :
    r.run s c = .ok ⟨(if r.on_balance_no_available_configured then
        [(c.name, q, s.amount, s.base_asset)] else []), [], [], [], [], [], []⟩ := by
  rw [StrategyRunner.run, hb]
  simp [hq, hlt]

/-- Concrete exchange client reporting a free balance below the per-pair
amount of `sampleStrategy`. -/
def poorClient : ExchangeClient :=
  ⟨"binance",
   fun _ => .ok [("USDT", 3)],
   fun _ _ => .ok [⟨true⟩],
   fun _ _ => .ok ⟨50000⟩,
   fun _ _ _ => .ok ⟨"oid1", 50000, "closed"⟩⟩

/-- Witness for C3 at a concrete input. -/
theorem run_insufficient_funds_witness :
    sampleRunner.run sampleStrategy poorClient =
      .ok ⟨[("binance", 3, 10, "USDT")], [], [], [], [], [], []⟩ :=
  run_insufficient_funds sampleRunner sampleStrategy poorClient [("USDT", 3)] 3
    (by decide) (by decide) (by norm_num [sampleStrategy])

/-! ## The `created_orders` initialization bug (dca.py lines 196-207)

`except RetryError: pass` leaves the local `created_orders` unassigned
(first pair) or holding the previous pair's trades (later pairs); the
gate check then reads it. -/

/-- Runner for the stale-history scenario: gate configured, always
declining. -/
def staleHistoryRunner : StrategyRunner := ⟨false, some (fun _ _ _ _ => false), false⟩

/-- Strategy for the stale-history scenario: two assets, amount 1. -/
def staleHistoryStrategy : Strategy := ⟨"1d", 1, "U", ["A", "B"], ["x"]⟩

/-- Client for the stale-history scenario: the history fetch succeeds
with one buyer trade for pair `A/U` and exhausts retries for `B/U`. -/
def staleHistoryClient : ExchangeClient :=
  ⟨"x",
   fun _ => .ok [("U", 2)],
   fun pair _ => if pair = "A/U" then .ok [⟨true⟩] else .error "net",
   fun _ _ => .ok ⟨1⟩,
   fun _ _ _ => .ok ⟨"oid1", 1, "closed"⟩⟩

/-- C4 is violated by the code: when pair `B/U`'s history fetch fails
with `RetryExhausted`, the gate predicate for `B/U` receives pair
`A/U`'s history `[⟨true⟩]` — the stale value of the never-reset local
`created_orders` — not the empty history the claim (and spec) state. -/
theorem history_failure_stale_not_empty :
    staleHistoryRunner.run staleHistoryStrategy staleHistoryClient =
      .ok ⟨[], ["A/U", "B/U"],
           [("A/U", "x", "1d", [⟨true⟩]), ("B/U", "x", "1d", [⟨true⟩])],
           [], [], [], []⟩ := by
  have hb : staleHistoryClient.get_balances = .ok [("U", 2)] :=
    staleHistoryClient.get_balances_first_ok _ rfl
  have hA : staleHistoryClient.get_buy_orders "A/U" = .ok [⟨true⟩] := by
    simpa using staleHistoryClient.get_buy_orders_first_ok "A/U" [⟨true⟩] (by simp [staleHistoryClient])
  have hB : staleHistoryClient.get_buy_orders "B/U" = .retryExhausted "net" :=
    staleHistoryClient.get_buy_orders_all_error "B/U" "net" (fun n => by simp [staleHistoryClient])
  have hpA : "A" ++ "/" ++ "U" = "A/U" := rfl
  have hpB : "B" ++ "/" ++ "U" = "B/U" := rfl
  have hn : staleHistoryClient.name = "x" := rfl
  rw [StrategyRunner.run, hb]
  norm_num [staleHistoryStrategy, staleHistoryRunner, lookupFree,
    Strategy.get_pairs, allocate, allocLoop, processPairs, pairStep, hpA, hpB, hn, hA, hB,
    RunEvents.append, RunEvents.empty]

/-- Runner for the crash scenario: gate configured, always approving. -/
def crashRunner : StrategyRunner := ⟨false, some (fun _ _ _ _ => true), false⟩

/-- Strategy for the crash scenario: a single asset. -/
def crashStrategy : Strategy := ⟨"1d", 1, "U", ["A"], ["x"]⟩

/-- Client for the crash scenario: balances succeed, every history fetch
exhausts its retries. -/
def crashClient : ExchangeClient :=
  ⟨"x",
   fun _ => .ok [("U", 5)],
   fun _ _ => .error "net",
   fun _ _ => .ok ⟨1⟩,
   fun _ _ _ => .ok ⟨"oid1", 1, "closed"⟩⟩

/-- C5 is violated by the code: with a gate configured, a `RetryExhausted`
history fetch on the first allocated pair leaves `created_orders`
unassigned, and the gate check raises `UnboundLocalError` — an exception
propagating out of `run` from a purely transport-level failure. -/
theorem run_propagates_unbound_local :
    crashRunner.run crashStrategy crashClient = .error (.nameError "created_orders") := by
  have hb : crashClient.get_balances = .ok [("U", 5)] :=
    crashClient.get_balances_first_ok _ rfl
  have hB : ∀ p, crashClient.get_buy_orders p = .retryExhausted "net" := fun p =>
    crashClient.get_buy_orders_all_error p "net" (fun n => rfl)
  have hpA : "A" ++ "/" ++ "U" = "A/U" := rfl
  have hn : crashClient.name = "x" := rfl
  rw [StrategyRunner.run, hb]
  norm_num [crashStrategy, crashRunner, lookupFree, Strategy.get_pairs, allocate,
    allocLoop, processPairs, pairStep, hpA, hn, hB]

/-! ## Per-pair failure isolation -/

/-- A successful `pairStep` makes the loop over `p :: rest` the step's
events prepended to the processing of `rest` from the updated state. -/
theorem processPairs_cons_ok (r : StrategyRunner) (s : Strategy) (c : ExchangeClient)
    (created : Option (List Trade)) (p : String) (rest : List String) (ev : RunEvents)
    (created' : Option (List Trade))
    (h : pairStep r s c created p = .ok (ev, created')) :
    processPairs r s c created (p :: rest) =
      (processPairs r s c created' rest).map ev.append := by
  rw [processPairs, h]
  cases hres : processPairs r s c created' rest <;> simp [Except.map, hres]

/-- The price step never records a gate call. -/
theorem priceAndBuy_gateCalls (r : StrategyRunner) (s : Strategy) (c : ExchangeClient)
    (p : String) : (priceAndBuy r s c p).gateCalls = [] := by
  rcases h : c.get_price p with t | e
  · rcases hb : c.buy p (fmt8 (s.amount / t.ask)) with o | e2 <;> simp [priceAndBuy, h, hb]
  · simp [priceAndBuy, h]

/-- The price step always records exactly one price fetch for the pair. -/
theorem priceAndBuy_priceFetches (r : StrategyRunner) (s : Strategy) (c : ExchangeClient)
    (p : String) : (priceAndBuy r s c p).priceFetches = [p] := by
  rcases h : c.get_price p with t | e
  · rcases hb : c.buy p (fmt8 (s.amount / t.ask)) with o | e2 <;> simp [priceAndBuy, h, hb]
  · simp [priceAndBuy, h]

/-- When the ticker arrives, the buy is attempted with the 8-decimal
quantity `perPairAmount / ask`, whatever its outcome. -/
theorem priceAndBuy_buyCalls_of_price_ok (r : StrategyRunner) (s : Strategy)
    (c : ExchangeClient) (p : String) (t : Ticker) (h : c.get_price p = .ok t) :
    (priceAndBuy r s c p).buyCalls = [(p, fmt8 (s.amount / t.ask))] := by
  rcases hb : c.buy p (fmt8 (s.amount / t.ask)) with o | e2 <;> simp [priceAndBuy, h, hb]

/-- C6. For a pair whose history fetch succeeded, a `RetryExhausted`
ticker fetch (first part) or a `RetryExhausted` order submission (second
part) leaves the pair without any recorded order or order-created
notification — and in the price case without even a buy attempt — while
the loop over the remaining pairs continues unchanged from the updated
`created_orders` state. -/
theorem pair_failure_skips_only_that_pair (r : StrategyRunner) (s : Strategy)
    (c : ExchangeClient) (created : Option (List Trade)) (p : String) (tr : List Trade)
    (htr : c.get_buy_orders p = .ok tr) :
    (∀ err : NetErr, c.get_price p = .retryExhausted err →
      ∃ ev : RunEvents, pairStep r s c created p = .ok (ev, some tr) ∧
        ev.buyCalls = [] ∧ ev.orders = [] ∧ ev.orderCreatedCalls = [] ∧
        ∀ rest, processPairs r s c created (p :: rest) =
          (processPairs r s c (some tr) rest).map ev.append) ∧
    (∀ err : NetErr, (∀ a : ℚ, c.buy p a = .retryExhausted err) →
      ∃ ev : RunEvents, pairStep r s c created p = .ok (ev, some tr) ∧
        ev.orders = [] ∧ ev.orderCreatedCalls = [] ∧
        ∀ rest, processPairs r s c created (p :: rest) =
          (processPairs r s c (some tr) rest).map ev.append) := by
  constructor
  · intro err hp
    have hpb : priceAndBuy r s c p = ⟨[], [], [], [p], [], [], []⟩ := by
      simp [priceAndBuy, hp]
    rcases hcb : r.should_execute_buy_callback with _ | cb
    · have hstep : pairStep r s c created p =
          .ok (⟨[], [p], [], [p], [], [], []⟩, some tr) := by
        simp [pairStep, htr, hcb, hpb, RunEvents.append]
      exact ⟨_, hstep, rfl, rfl, rfl,
        fun rest => processPairs_cons_ok r s c created p rest _ _ hstep⟩
    · by_cases hg : cb p c.name s.period tr
      · have hstep : pairStep r s c created p =
            .ok (⟨[], [p], [(p, c.name, s.period, tr)], [p], [], [], []⟩, some tr) := by
          simp [pairStep, htr, hcb, hg, hpb, RunEvents.append]
        exact ⟨_, hstep, rfl, rfl, rfl,
          fun rest => processPairs_cons_ok r s c created p rest _ _ hstep⟩
      · have hstep : pairStep r s c created p =
            .ok (⟨[], [p], [(p, c.name, s.period, tr)], [], [], [], []⟩, some tr) := by
          simp [pairStep, htr, hcb, hg, RunEvents.append]
        exact ⟨_, hstep, rfl, rfl, rfl,
          fun rest => processPairs_cons_ok r s c created p rest _ _ hstep⟩
  · intro err hbuy
    have hpb : (priceAndBuy r s c p).orders = [] ∧
        (priceAndBuy r s c p).orderCreatedCalls = [] := by
      rcases hpk : c.get_price p with t | e2
      · simp [priceAndBuy, hpk, hbuy]
      · simp [priceAndBuy, hpk]
    rcases hcb : r.should_execute_buy_callback with _ | cb
    · have hstep : pairStep r s c created p =
          .ok ((⟨[], [p], [], [], [], [], []⟩ : RunEvents).append (priceAndBuy r s c p),
               some tr) := by
        simp [pairStep, htr, hcb]
      refine ⟨_, hstep, ?_, ?_,
        fun rest => processPairs_cons_ok r s c created p rest _ _ hstep⟩
      · simp [RunEvents.append, hpb.1]
      · simp [RunEvents.append, hpb.2]
    · by_cases hg : cb p c.name s.period tr
      · have hstep : pairStep r s c created p =
            .ok (((⟨[], [p], [], [], [], [], []⟩ : RunEvents).append
                   ⟨[], [], [(p, c.name, s.period, tr)], [], [], [], []⟩).append
                     (priceAndBuy r s c p),
                 some tr) := by
          simp [pairStep, htr, hcb, hg]
        refine ⟨_, hstep, ?_, ?_,
          fun rest => processPairs_cons_ok r s c created p rest _ _ hstep⟩
        · simp [RunEvents.append, hpb.1]
        · simp [RunEvents.append, hpb.2]
      · have hstep : pairStep r s c created p =
            .ok (⟨[], [p], [(p, c.name, s.period, tr)], [], [], [], []⟩, some tr) := by
          simp [pairStep, htr, hcb, hg, RunEvents.append]
        exact ⟨_, hstep, rfl, rfl,
          fun rest => processPairs_cons_ok r s c created p rest _ _ hstep⟩

/-- Concrete client whose ticker fetch and order submission always fail
while balances and history succeed. -/
def flakyClient : ExchangeClient :=
  ⟨"binance",
   fun _ => .ok [("USDT", 25)],
   fun _ _ => .ok [⟨true⟩],
   fun _ _ => .error "tick down",
   fun _ _ _ => .error "order down"⟩

/-- Witness for C6 at a concrete input. -/
theorem pair_failure_skips_only_that_pair_witness :
    (∃ ev : RunEvents,
      pairStep sampleRunner sampleStrategy flakyClient none "BTC/USDT" =
        .ok (ev, some [⟨true⟩]) ∧
      ev.buyCalls = [] ∧ ev.orders = [] ∧ ev.orderCreatedCalls = [] ∧
      ∀ rest, processPairs sampleRunner sampleStrategy flakyClient none ("BTC/USDT" :: rest) =
        (processPairs sampleRunner sampleStrategy flakyClient (some [⟨true⟩]) rest).map
          ev.append) ∧
    (∃ ev : RunEvents,
      pairStep sampleRunner sampleStrategy flakyClient none "BTC/USDT" =
        .ok (ev, some [⟨true⟩]) ∧
      ev.orders = [] ∧ ev.orderCreatedCalls = [] ∧
      ∀ rest, processPairs sampleRunner sampleStrategy flakyClient none ("BTC/USDT" :: rest) =
        (processPairs sampleRunner sampleStrategy flakyClient (some [⟨true⟩]) rest).map
          ev.append) := by
  have htr : flakyClient.get_buy_orders "BTC/USDT" = .ok [⟨true⟩] := by
    simpa using flakyClient.get_buy_orders_first_ok "BTC/USDT" [⟨true⟩] rfl
  have h := pair_failure_skips_only_that_pair sampleRunner sampleStrategy flakyClient
    none "BTC/USDT" [⟨true⟩] htr
  exact ⟨h.1 "tick down" (flakyClient.get_price_all_error "BTC/USDT" "tick down" (fun n => rfl)),
         h.2 "order down" (fun a => flakyClient.buy_all_error "BTC/USDT" a "order down" (fun n => rfl))⟩

/-- C8. For a pair whose history fetch succeeded: a configured gate
returning `false` ends the pair with no price fetch and no buy attempt
while the remaining pairs continue unchanged (first part); a configured
gate returning `true` (second part) or no configured gate (third part)
proceeds to the price fetch and, once a ticker arrives, to the order
submission with quantity `perPairAmount / ask`. -/
theorem gate_controls_pair (r : StrategyRunner) (s : Strategy) (c : ExchangeClient)
    (created : Option (List Trade)) (p : String) (tr : List Trade)
    (htr : c.get_buy_orders p = .ok tr) :
    (∀ cb, r.should_execute_buy_callback = some cb →
      cb p c.name s.period tr = false →
      pairStep r s c created p =
        .ok (⟨[], [p], [(p, c.name, s.period, tr)], [], [], [], []⟩, some tr) ∧
      ∀ rest, processPairs r s c created (p :: rest) =
        (processPairs r s c (some tr) rest).map
          (RunEvents.append ⟨[], [p], [(p, c.name, s.period, tr)], [], [], [], []⟩)) ∧
    (∀ cb, r.should_execute_buy_callback = some cb →
      cb p c.name s.period tr = true →
      ∃ ev : RunEvents, pairStep r s c created p = .ok (ev, some tr) ∧
        ev.gateCalls = [(p, c.name, s.period, tr)] ∧ ev.priceFetches = [p] ∧
        (∀ t : Ticker, c.get_price p = .ok t →
          ev.buyCalls = [(p, fmt8 (s.amount / t.ask))])) ∧
    (r.should_execute_buy_callback = none →
      ∃ ev : RunEvents, pairStep r s c created p = .ok (ev, some tr) ∧
        ev.gateCalls = [] ∧ ev.priceFetches = [p] ∧
        (∀ t : Ticker, c.get_price p = .ok t →
          ev.buyCalls = [(p, fmt8 (s.amount / t.ask))])) := by
  refine ⟨?_, ?_, ?_⟩
  · intro cb hcb hg
    have hstep : pairStep r s c created p =
        .ok (⟨[], [p], [(p, c.name, s.period, tr)], [], [], [], []⟩, some tr) := by
      simp [pairStep, htr, hcb, hg, RunEvents.append]
    exact ⟨hstep, fun rest => processPairs_cons_ok r s c created p rest _ _ hstep⟩
  · intro cb hcb hg
    have hstep : pairStep r s c created p =
        .ok (((⟨[], [p], [], [], [], [], []⟩ : RunEvents).append
               ⟨[], [], [(p, c.name, s.period, tr)], [], [], [], []⟩).append
                 (priceAndBuy r s c p),
             some tr) := by
      simp [pairStep, htr, hcb, hg]
    refine ⟨_, hstep, ?_, ?_, ?_⟩
    · simp [RunEvents.append, priceAndBuy_gateCalls]
    · simp [RunEvents.append, priceAndBuy_priceFetches]
    · intro t ht
      simp [RunEvents.append, priceAndBuy_buyCalls_of_price_ok r s c p t ht]
  · intro hcb
    have hstep : pairStep r s c created p =
        .ok ((⟨[], [p], [], [], [], [], []⟩ : RunEvents).append (priceAndBuy r s c p),
             some tr) := by
      simp [pairStep, htr, hcb]
    refine ⟨_, hstep, ?_, ?_, ?_⟩
    · simp [RunEvents.append, priceAndBuy_gateCalls]
    · simp [RunEvents.append, priceAndBuy_priceFetches]
    · intro t ht
      simp [RunEvents.append, priceAndBuy_buyCalls_of_price_ok r s c p t ht]

/-- Concrete client whose trades fetch returns no buyer-side fills. -/
def emptyHistClient : ExchangeClient :=
  ⟨"binance",
   fun _ => .ok [("USDT", 25)],
   fun _ _ => .ok [],
   fun _ _ => .ok ⟨50000⟩,
   fun _ _ _ => .ok ⟨"oid1", 50000, "closed"⟩⟩

/-- Concrete runner with no gate configured. -/
def noGateRunner : StrategyRunner := ⟨true, none, true⟩

/-- Witness for C8 at concrete inputs, one per part. -/
theorem gate_controls_pair_witness :
    (pairStep sampleRunner sampleStrategy emptyHistClient none "BTC/USDT" =
        .ok (⟨[], ["BTC/USDT"], [("BTC/USDT", "binance", "1w", [])], [], [], [], []⟩,
             some []) ∧
      ∀ rest, processPairs sampleRunner sampleStrategy emptyHistClient none
          ("BTC/USDT" :: rest) =
        (processPairs sampleRunner sampleStrategy emptyHistClient (some []) rest).map
          (RunEvents.append ⟨[], ["BTC/USDT"], [("BTC/USDT", "binance", "1w", [])],
            [], [], [], []⟩)) ∧
    (∃ ev : RunEvents,
      pairStep sampleRunner sampleStrategy sampleClient none "BTC/USDT" =
        .ok (ev, some [⟨true⟩]) ∧
      ev.gateCalls = [("BTC/USDT", "binance", "1w", [⟨true⟩])] ∧
      ev.priceFetches = ["BTC/USDT"] ∧
      (∀ t : Ticker, sampleClient.get_price "BTC/USDT" = .ok t →
        ev.buyCalls = [("BTC/USDT", fmt8 (sampleStrategy.amount / t.ask))])) ∧
    (∃ ev : RunEvents,
      pairStep noGateRunner sampleStrategy sampleClient none "BTC/USDT" =
        .ok (ev, some [⟨true⟩]) ∧
      ev.gateCalls = [] ∧ ev.priceFetches = ["BTC/USDT"] ∧
      (∀ t : Ticker, sampleClient.get_price "BTC/USDT" = .ok t →
        ev.buyCalls = [("BTC/USDT", fmt8 (sampleStrategy.amount / t.ask))])) := by
  have htrE : emptyHistClient.get_buy_orders "BTC/USDT" = .ok [] := by
    simpa using emptyHistClient.get_buy_orders_first_ok "BTC/USDT" [] rfl
  have htrS : sampleClient.get_buy_orders "BTC/USDT" = .ok [⟨true⟩] := by
    simpa using sampleClient.get_buy_orders_first_ok "BTC/USDT" [⟨true⟩, ⟨false⟩] rfl
  refine ⟨?_, ?_, ?_⟩
  · exact (gate_controls_pair sampleRunner sampleStrategy emptyHistClient none
      "BTC/USDT" [] htrE).1 _ rfl rfl
  · exact (gate_controls_pair sampleRunner sampleStrategy sampleClient none
      "BTC/USDT" [⟨true⟩] htrS).2.1 _ rfl rfl
  · exact (gate_controls_pair noGateRunner sampleStrategy sampleClient none
      "BTC/USDT" [⟨true⟩] htrS).2.2 rfl

/-! ## Retry policy -/

/-- Failing attempts hand over to the next attempt with one unit of fuel
spent. -/
theorem retryGo_error_step {ε α : Type} (op : Nat → Except ε α) (attempt fuel : Nat)
    (e : ε) (h : op attempt = .error e) :
    retryGo op attempt (fuel + 1) = retryGo op (attempt + 1) fuel := by
  simp [retryGo, h]

/-- A failing final attempt wraps its error into exhaustion. -/
theorem retryGo_error_last {ε α : Type} (op : Nat → Except ε α) (attempt : Nat)
    (e : ε) (h : op attempt = .error e) :
    retryGo op attempt 0 = .retryExhausted e := by
  simp [retryGo, h]

/-- C9. Under the configured policy (`maxAttempts = 5`, fixed wait of 1
second): an operation whose attempts fail before attempt `j ≤ 5` and
succeed at `j` returns attempt `j`'s value; an operation failing on all
five attempts is exhausted with the fifth (last) error wrapped; and each
of the four facade operations is exactly the retry combinator applied to
its raw exchange-client call. -/
theorem retry_policy {ε α : Type} (op : Nat → Except ε α) (c : ExchangeClient)
    (pair : String) (amount : ℚ) :
    (∀ (j : Nat) (a : α), 1 ≤ j → j ≤ NUMBER_OF_NETWORK_ATTEMPTS →
        (∀ k, 1 ≤ k → k < j → ∃ e, op k = .error e) → op j = .ok a →
        tenacityRetrying NUMBER_OF_NETWORK_ATTEMPTS RETRY_WAIT_TIME_SECONDS op = .ok a) ∧
    (∀ errOf : Nat → ε,
        (∀ k, 1 ≤ k → k ≤ NUMBER_OF_NETWORK_ATTEMPTS → op k = .error (errOf k)) →
        tenacityRetrying NUMBER_OF_NETWORK_ATTEMPTS RETRY_WAIT_TIME_SECONDS op =
          .retryExhausted (errOf NUMBER_OF_NETWORK_ATTEMPTS)) ∧
    NUMBER_OF_NETWORK_ATTEMPTS = 5 ∧
    RETRY_WAIT_TIME_SECONDS = 1 ∧
    c.get_balances =
      tenacityRetrying NUMBER_OF_NETWORK_ATTEMPTS RETRY_WAIT_TIME_SECONDS c.fetch_balance ∧
    c.get_buy_orders pair =
      tenacityRetrying NUMBER_OF_NETWORK_ATTEMPTS RETRY_WAIT_TIME_SECONDS
        (fun attempt => (c.fetch_my_trades pair attempt).map
          (List.filter (fun o => o.isBuyer))) ∧
    c.get_price pair =
      tenacityRetrying NUMBER_OF_NETWORK_ATTEMPTS RETRY_WAIT_TIME_SECONDS
        (c.fetch_ticker pair) ∧
    c.buy pair amount =
      tenacityRetrying NUMBER_OF_NETWORK_ATTEMPTS RETRY_WAIT_TIME_SECONDS
        (c.create_order pair amount) := by
  have ht : tenacityRetrying NUMBER_OF_NETWORK_ATTEMPTS RETRY_WAIT_TIME_SECONDS op =
      retryGo op 1 4 := rfl
  refine ⟨?_, ?_, rfl, rfl, rfl, rfl, rfl, rfl⟩
  · intro j a hj1 hj5 herr hok
    rw [ht]
    have hj5' : j ≤ 5 := hj5
    interval_cases j
    · exact retryGo_ok op 1 a hok 4
    · obtain ⟨e1, h1⟩ := herr 1 (by norm_num) (by norm_num)
      calc retryGo op 1 4 = retryGo op 2 3 := retryGo_error_step op 1 3 e1 h1
        _ = .ok a := retryGo_ok op 2 a hok 3
    · obtain ⟨e1, h1⟩ := herr 1 (by norm_num) (by norm_num)
      obtain ⟨e2, h2⟩ := herr 2 (by norm_num) (by norm_num)
      calc retryGo op 1 4 = retryGo op 2 3 := retryGo_error_step op 1 3 e1 h1
        _ = retryGo op 3 2 := retryGo_error_step op 2 2 e2 h2
        _ = .ok a := retryGo_ok op 3 a hok 2
    · obtain ⟨e1, h1⟩ := herr 1 (by norm_num) (by norm_num)
      obtain ⟨e2, h2⟩ := herr 2 (by norm_num) (by norm_num)
      obtain ⟨e3, h3⟩ := herr 3 (by norm_num) (by norm_num)
      calc retryGo op 1 4 = retryGo op 2 3 := retryGo_error_step op 1 3 e1 h1
        _ = retryGo op 3 2 := retryGo_error_step op 2 2 e2 h2
        _ = retryGo op 4 1 := retryGo_error_step op 3 1 e3 h3
        _ = .ok a := retryGo_ok op 4 a hok 1
    · obtain ⟨e1, h1⟩ := herr 1 (by norm_num) (by norm_num)
      obtain ⟨e2, h2⟩ := herr 2 (by norm_num) (by norm_num)
      obtain ⟨e3, h3⟩ := herr 3 (by norm_num) (by norm_num)
      obtain ⟨e4, h4⟩ := herr 4 (by norm_num) (by norm_num)
      calc retryGo op 1 4 = retryGo op 2 3 := retryGo_error_step op 1 3 e1 h1
        _ = retryGo op 3 2 := retryGo_error_step op 2 2 e2 h2
        _ = retryGo op 4 1 := retryGo_error_step op 3 1 e3 h3
        _ = retryGo op 5 0 := retryGo_error_step op 4 0 e4 h4
        _ = .ok a := retryGo_ok op 5 a hok 0
  · intro errOf h
    rw [ht]
    have h1 := h 1 (by norm_num) (by norm_num [NUMBER_OF_NETWORK_ATTEMPTS])
    have h2 := h 2 (by norm_num) (by norm_num [NUMBER_OF_NETWORK_ATTEMPTS])
    have h3 := h 3 (by norm_num) (by norm_num [NUMBER_OF_NETWORK_ATTEMPTS])
    have h4 := h 4 (by norm_num) (by norm_num [NUMBER_OF_NETWORK_ATTEMPTS])
    have h5 := h 5 (by norm_num) (by norm_num [NUMBER_OF_NETWORK_ATTEMPTS])
    calc retryGo op 1 4 = retryGo op 2 3 := retryGo_error_step op 1 3 _ h1
      _ = retryGo op 3 2 := retryGo_error_step op 2 2 _ h2
      _ = retryGo op 4 1 := retryGo_error_step op 3 1 _ h3
      _ = retryGo op 5 0 := retryGo_error_step op 4 0 _ h4
      _ = .retryExhausted (errOf 5) := retryGo_error_last op 5 _ h5

/-- Concrete operation failing on attempts 1-4 and succeeding on the 5th. -/
def failThenOkOp : Nat → Except Nat Nat :=
  fun k => if k = 5 then .ok 42 else .error k

/-- Witness for C9 at concrete inputs: four failures then a success
return the success; five failures exhaust with the last error. -/
theorem retry_policy_witness :
    tenacityRetrying NUMBER_OF_NETWORK_ATTEMPTS RETRY_WAIT_TIME_SECONDS failThenOkOp =
      .ok 42 ∧
    tenacityRetrying NUMBER_OF_NETWORK_ATTEMPTS RETRY_WAIT_TIME_SECONDS
      (fun k => (.error k : Except Nat Nat)) = .retryExhausted 5 := by
  constructor
  · exact (retry_policy failThenOkOp sampleClient "BTC/USDT" 1).1 5 42 (by norm_num)
      (by norm_num [NUMBER_OF_NETWORK_ATTEMPTS])
      (fun k hk1 hk5 => ⟨k, by simp [failThenOkOp, Nat.ne_of_lt hk5]⟩)
      (by simp [failThenOkOp])
  · exact (retry_policy (fun k => (.error k : Except Nat Nat)) sampleClient "BTC/USDT" 1).2.1
      (fun k => k) (fun k hk1 hk5 => rfl)

end DCA
